/-
Verification of the helmet-detection adapter (`src/services/model_service.py`).

Shallow embedding conventions:
* Python `bytes` ↦ `List Nat` (each entry a byte value; SHA-1 reduces entries
  mod 256, as Python's `bytes` type guarantees by construction).
* Python `float` ↦ `ℚ`.  All scores compared against the thresholds 0.7 / 0.3
  are of the form k/65535 with k < 2^16, which keeps a distance ≥ 7·10⁻⁶ from
  the thresholds, far above double-precision error, so exact rational
  comparison agrees with the float comparison in the source.
* `round(x, 3)` ↦ `round3`, round-half-to-even at the third decimal, matching
  Python 3 `round`.
* Exceptions ↦ `Except` / `Option`: the external decode+inference step is an
  abstract function returning `Except`, and the class-name lookup returns
  `Option` (`none` = `IndexError`).
-/
import Mathlib

set_option maxRecDepth 4000

/-! ## 32-bit arithmetic and SHA-1 (`hashlib.sha1`)

The stub predictor hashes the input bytes with SHA-1.  We embed SHA-1
executably over `List Nat`, with 32-bit words as `Nat` reduced mod 2^32. -/

/-- Reduce to a 32-bit word. -/
def w32 (n : Nat) : Nat := n % 4294967296

/-- Bitwise combination of the low `fuel` bits of two naturals (fuel-structural
so that the kernel can evaluate it). -/
def bw : Nat → (Bool → Bool → Bool) → Nat → Nat → Nat
  | 0, _, _, _ => 0
  | fuel+1, f, n, m =>
    (if f (n % 2 == 1) (m % 2 == 1) then 1 else 0) + 2 * bw fuel f (n / 2) (m / 2)

/-- 32-bit XOR. -/
def xor32 (n m : Nat) : Nat := bw 32 (fun a b => a != b) n m

/-- 32-bit AND. -/
def and32 (n m : Nat) : Nat := bw 32 (fun a b => a && b) n m

/-- 32-bit OR. -/
def or32 (n m : Nat) : Nat := bw 32 (fun a b => a || b) n m

/-- 32-bit complement (argument first reduced mod 2^32). -/
def not32 (n : Nat) : Nat := 4294967295 - w32 n

/-- Rotate a 32-bit word left by `b` bits (for `n < 2^32`). -/
def rotl (b n : Nat) : Nat := (n % 2 ^ (32 - b)) * 2 ^ b + n / 2 ^ (32 - b)

/-- Group a byte list into big-endian 32-bit words (a trailing group of fewer
than 4 bytes is dropped; padded SHA-1 input never has one). -/
def toWords : List Nat → List Nat
  | b0 :: b1 :: b2 :: b3 :: rest =>
    ((((b0 % 256) * 256 + b1 % 256) * 256 + b2 % 256) * 256 + b3 % 256) :: toWords rest
  | _ => []

/-- Extend the 16-word message schedule by `k` further words. -/
def extendW : Nat → List Nat → List Nat
  | 0, ws => ws
  | k+1, ws =>
    let n := ws.length
    extendW k (ws ++ [rotl 1 (xor32 (xor32 (ws.getD (n-3) 0) (ws.getD (n-8) 0))
      (xor32 (ws.getD (n-14) 0) (ws.getD (n-16) 0)))])

/-- SHA-1 round function. -/
def sha1f (i b c d : Nat) : Nat :=
  if i < 20 then or32 (and32 b c) (and32 (not32 b) d)
  else if i < 40 then xor32 (xor32 b c) d
  else if i < 60 then or32 (or32 (and32 b c) (and32 b d)) (and32 c d)
  else xor32 (xor32 b c) d

/-- SHA-1 round constants. -/
def sha1k (i : Nat) : Nat :=
  if i < 20 then 1518500249
  else if i < 40 then 1859775393
  else if i < 60 then 2400959708
  else 3395469782

/-- The 80 SHA-1 rounds over the message schedule. -/
def sha1loop : List Nat → Nat → Nat × Nat × Nat × Nat × Nat → Nat × Nat × Nat × Nat × Nat
  | [], _, st => st
  | w :: ws, i, (a, b, c, d, e) =>
    sha1loop ws (i+1) (w32 (rotl 5 a + sha1f i b c d + e + sha1k i + w), a, rotl 30 b, c, d)

/-- Process the padded message 64-byte chunk by 64-byte chunk (fuel-structural). -/
def processChunks : Nat → List Nat → Nat × Nat × Nat × Nat × Nat → Nat × Nat × Nat × Nat × Nat
  | 0, _, st => st
  | fuel+1, msg, st =>
    if msg.isEmpty then st
    else
      let r := sha1loop (extendW 64 (toWords (msg.take 64))) 0 st
      processChunks fuel (msg.drop 64)
        (w32 (st.1 + r.1), w32 (st.2.1 + r.2.1), w32 (st.2.2.1 + r.2.2.1),
         w32 (st.2.2.2.1 + r.2.2.2.1), w32 (st.2.2.2.2 + r.2.2.2.2))

/-- The 8-byte big-endian encoding of a bit length. -/
def lenBytes8 (n : Nat) : List Nat :=
  [n / 2^56 % 256, n / 2^48 % 256, n / 2^40 % 256, n / 2^32 % 256,
   n / 2^24 % 256, n / 2^16 % 256, n / 2^8 % 256, n % 256]

/-- SHA-1 padding: append 0x80, zeros to 56 mod 64, then the bit length. -/
def sha1pad (msg : List Nat) : List Nat :=
  msg ++ [128] ++ List.replicate ((119 - msg.length % 64) % 64) 0 ++ lenBytes8 (8 * msg.length)

/-- The first 32-bit word of the SHA-1 digest of `msg`. -/
def sha1h0 (msg : List Nat) : Nat :=
  (processChunks ((sha1pad msg).length / 64 + 1) (sha1pad msg)
    (1732584193, 4023233417, 2562383102, 271733878, 3285377520)).1

/-- `int.from_bytes(digest[:2], "big")`: the first two digest bytes as a
big-endian 16-bit integer, i.e. the high 16 bits of the digest's first word. -/
def digest16 (msg : List Nat) : Nat := sha1h0 msg / 65536

/-! ## Rounding (`round(x, 3)`) -/

/-- Python 3 `round` to an integer: round half to even. -/
def rhe (q : ℚ) : ℤ :=
  if q - ⌊q⌋ < 1/2 then ⌊q⌋
  else if 1/2 < q - ⌊q⌋ then ⌊q⌋ + 1
  else if ⌊q⌋ % 2 = 0 then ⌊q⌋ else ⌊q⌋ + 1

/-- Python `round(q, 3)`. -/
def round3 (q : ℚ) : ℚ := (rhe (1000 * q) : ℚ) / 1000

/-! ## Data model -/

/-- One detected object: raw class label and confidence score
(spec §3 `DetectedObject`; the pair of `classes_raw[i]` and `conf_scores[i]`
produced by `_predict_with_yolo` from one box). -/
structure Detection where
  cls : String
  conf : ℚ
deriving DecidableEq

/-- The returned dict `{"label": ..., "confidence": ...}` (spec §3 `Verdict`). -/
@[ext]
structure Verdict where
  label : String
  confidence : ℚ
deriving DecidableEq

/-! ## Label normalization and aggregation (`_predict_with_yolo`, lines 75-96) -/

/-- `needle` is a prefix of `hay` (on character lists). -/
def isPrefList : List Char → List Char → Bool
  | [], _ => true
  | _ :: _, [] => false
  | a :: as, b :: bs => a == b && isPrefList as bs

/-- Python's `needle in hay` substring test, on character lists. -/
def containsSub : List Char → List Char → Bool
  | needle, [] => needle.isEmpty
  | needle, c :: rest => isPrefList needle (c :: rest) || containsSub needle rest

/-- `c.lower()`: per-character lowercasing, written as a plain map over the
character list (extensionally `String.toLower`, which the kernel cannot
evaluate because of its well-founded recursion). -/
def strLower (s : String) : String := ⟨s.data.map Char.toLower⟩

/-- Lines 77-83: normalize one raw class label.
`c_lower in {"head", "person"}` → `"person"`; `"helmet" in c_lower` →
`"helmet"`; otherwise the lowercased label itself. -/
def normalizeClass (c : String) : String :=
  let c_lower := strLower c
  if c_lower = "head" ∨ c_lower = "person" then "person"
  else if containsSub "helmet".data c_lower.data then "helmet"
  else c_lower

/-- Lines 75-96: turn the raw class-label list and confidence list into the
verdict dict.  `label` starts as `"uncertain"` and is overwritten when
`person_count > 0`; `confidence` is the mean of all confidence scores, or 0.5
when the list is empty (Python truthiness of `conf_scores`). -/
def aggregateRaw (classes_raw : List String) (conf_scores : List ℚ) : Verdict :=
  let classes := classes_raw.map normalizeClass
  let person_count := classes.count "person"
  let helmet_count := classes.count "helmet"
  let violation_count : ℤ := max ((person_count : ℤ) - (helmet_count : ℤ)) 0
  let label := if person_count > 0 then
      (if violation_count > 0 then "no_helmet" else "helmet")
    else "uncertain"
  let confidence : ℚ :=
    if conf_scores.isEmpty then 1/2 else conf_scores.sum / (conf_scores.length : ℚ)
  ⟨label, round3 confidence⟩

/-- Spec §4.1 `aggregate`: the same computation on a list of detections
(labels and confidences travel together, as they do in `results.boxes`). -/
def aggregate (dets : List Detection) : Verdict :=
  aggregateRaw (dets.map Detection.cls) (dets.map Detection.conf)

/-- Number of detections normalized to `"person"`. -/
def personCount (dets : List Detection) : Nat :=
  (dets.map (fun d => normalizeClass d.cls)).count "person"

/-- Number of detections normalized to `"helmet"`. -/
def helmetCount (dets : List Detection) : Nat :=
  (dets.map (fun d => normalizeClass d.cls)).count "helmet"

/-! ## The deterministic stub (`_predict_stub`, lines 101-115) -/

/-- Line 103: `int.from_bytes(hashlib.sha1(image_bytes).digest()[:2], "big") / 65535`. -/
def scoreOf (image_bytes : List Nat) : ℚ := (digest16 image_bytes : ℚ) / 65535

/-- Lines 101-115: the deterministic stub prediction. -/
def predictStubBytes (image_bytes : List Nat) : Verdict :=
  let score := scoreOf image_bytes
  if score > 7/10 then ⟨"helmet", round3 score⟩
  else if score < 3/10 then ⟨"no_helmet", round3 (1 - score)⟩
  else ⟨"uncertain", round3 (1/2)⟩

/-! ## The service (`ModelService`) -/

/-- The value of `results` from `self.model(frame, verbose=False)[0]`:
the name table, the class indices (`results.boxes.cls`, after `int(...)`)
and the confidence scores (`results.boxes.conf.tolist()`). -/
structure YoloResults where
  names : List String
  cls : List ℤ
  conf : List ℚ

/-- The external decode + inference step (lines 67-70), abstracted: `run`
maps the input bytes to the detector results, or to an error (any exception
raised by `Image.open`, `convert`, or the model call). -/
structure YoloModel where
  run : List Nat → Except String YoloResults

/-- The two `except` arms of `_load_model` (lines 53-57). -/
inductive LoadError where
  | importError
  | otherError (msg : String)
deriving DecidableEq

/-- The service state after `__init__`. -/
structure ModelService where
  device : String
  model : Option YoloModel
  weights_path : Option String
  class_names : List String

/-- Python list indexing `names[i]` (negative indices count from the end;
`none` models `IndexError`). -/
def pyIndex (names : List String) (i : ℤ) : Option String :=
  if 0 ≤ i then names.get? i.toNat
  else if 0 ≤ i + names.length then names.get? (i + names.length).toNat
  else none

/-- Line 73, per element: `names[int(c)] if int(c) < len(names) else str(int(c))`. -/
def classLabel (names : List String) (i : ℤ) : Option String :=
  if i < (names.length : ℤ) then pyIndex names i else some (toString i)

/-- Line 71: `getattr(results, "names", self.class_names) or self.class_names`
(`results` always has `names`; an empty table is falsy). -/
def effNames (svc : ModelService) (r : YoloResults) : List String :=
  if r.names.isEmpty then svc.class_names else r.names

/-- Lines 64-99: the model path.  The caller (`predict`) has matched
`self.model` to `some m`.  Any error from decode/inference (`run` returns
`.error`) or from the class-label lookup (an `IndexError` inside the list
comprehension on line 73) is caught by the `except` on line 97 and falls back
to the stub on the same bytes. -/
def ModelService.predictWithYolo (svc : ModelService) (m : YoloModel)
    (image_bytes : List Nat) : Verdict :=
  match m.run image_bytes with
  | .error _ => predictStubBytes image_bytes
  | .ok results =>
    match results.cls.mapM (classLabel (effNames svc results)) with
    | none => predictStubBytes image_bytes
    | some classes_raw => aggregateRaw classes_raw results.conf

/-- Lines 101-115 as the method: the body reads only `image_bytes`, never
`self`. -/
def ModelService.predictStub (_self : ModelService) (image_bytes : List Nat) : Verdict :=
  predictStubBytes image_bytes

/-- Lines 59-62: `predict`. -/
def ModelService.predict (svc : ModelService) (image_bytes : List Nat) : Verdict :=
  match svc.model with
  | some m => svc.predictWithYolo m image_bytes
  | none => svc.predictStub image_bytes

/-- Lines 19-57: `__init__` + `_load_model`.  `seed` only feeds the global
`random.seed(seed)` call, which nothing in the service reads; `load` abstracts
the outcome of the `try` block (a loaded model together with its
`names` table, or one of the two caught exception kinds).  On any load failure
the handle stays `none` and `class_names` stays `[]`. -/
def ModelService.init (weights_path : Option String) (_seed : ℤ) (device : String)
    (load : Except LoadError (YoloModel × List String)) : ModelService :=
  match load with
  | .ok (m, ns) => ⟨device, some m, weights_path, ns⟩
  | .error _ => ⟨device, none, weights_path, []⟩

/-! ## Helper lemmas: rounding -/

lemma rhe_ge_floor (q : ℚ) : ⌊q⌋ ≤ rhe q := by
  unfold rhe
  split_ifs <;> omega

lemma rhe_le_floor_add_one (q : ℚ) : rhe q ≤ ⌊q⌋ + 1 := by
  unfold rhe
  split_ifs <;> omega

lemma le_rhe (q : ℚ) : q - 1/2 ≤ (rhe q : ℚ) := by
  have hf : ((⌊q⌋ : ℤ) : ℚ) ≤ q := Int.floor_le q
  have hf2 : q < (⌊q⌋ : ℚ) + 1 := Int.lt_floor_add_one q
  unfold rhe
  split_ifs <;> push_cast <;> linarith

lemma rhe_le (q : ℚ) : (rhe q : ℚ) ≤ q + 1/2 := by
  have hf : ((⌊q⌋ : ℤ) : ℚ) ≤ q := Int.floor_le q
  have hf2 : q < (⌊q⌋ : ℚ) + 1 := Int.lt_floor_add_one q
  unfold rhe
  split_ifs <;> push_cast <;> linarith

lemma rhe_intCast (n : ℤ) : rhe (n : ℚ) = n := by
  unfold rhe
  rw [Int.floor_intCast, sub_self]
  norm_num

lemma round3_half : round3 (1/2) = 1/2 := by
  have h : (1000 : ℚ) * (1/2) = ((500 : ℤ) : ℚ) := by norm_num
  rw [round3, h, rhe_intCast]
  norm_num

lemma round3_nonneg {q : ℚ} (h : 0 ≤ q) : 0 ≤ round3 q := by
  have h1 : (0 : ℤ) ≤ ⌊(1000 : ℚ) * q⌋ := Int.floor_nonneg.mpr (by linarith)
  have h2 : (0 : ℤ) ≤ rhe (1000 * q) := le_trans h1 (rhe_ge_floor _)
  rw [round3]
  have h3 : (0 : ℚ) ≤ (rhe (1000 * q) : ℚ) := by exact_mod_cast h2
  linarith

lemma round3_le_one {q : ℚ} (h : q ≤ 1) : round3 q ≤ 1 := by
  have h1 : (rhe (1000 * q) : ℚ) ≤ 1000 * q + 1/2 := rhe_le _
  have h2 : (rhe (1000 * q) : ℚ) < 1001 := by linarith
  have h3 : rhe (1000 * q) < (1001 : ℤ) := by exact_mod_cast h2
  have h4 : rhe (1000 * q) ≤ (1000 : ℤ) := by omega
  have h5 : (rhe (1000 * q) : ℚ) ≤ 1000 := by exact_mod_cast h4
  rw [round3]
  linarith

lemma round3_ge_of_gt {q : ℚ} (h : 7/10 < q) : 7/10 ≤ round3 q := by
  have h1 : 1000 * q - 1/2 ≤ (rhe (1000 * q) : ℚ) := le_rhe _
  have h2 : (699 : ℚ) < (rhe (1000 * q) : ℚ) := by linarith
  have h3 : (699 : ℤ) < rhe (1000 * q) := by exact_mod_cast h2
  have h4 : (700 : ℤ) ≤ rhe (1000 * q) := by omega
  have h5 : (700 : ℚ) ≤ (rhe (1000 * q) : ℚ) := by exact_mod_cast h4
  rw [round3]
  linarith

/-- `round3` always lands on an integer multiple of 1/1000. -/
lemma round3_thousandth (q : ℚ) : ∃ n : ℤ, round3 q = (n : ℚ) / 1000 :=
  ⟨rhe (1000 * q), rfl⟩

/-! ## Helper lemmas: SHA-1 word bounds -/

lemma w32_lt (n : Nat) : w32 n < 4294967296 :=
  Nat.mod_lt _ (by norm_num)

lemma processChunks_fst_lt (fuel : Nat) :
    ∀ (msg : List Nat) (st : Nat × Nat × Nat × Nat × Nat),
      st.1 < 4294967296 → (processChunks fuel msg st).1 < 4294967296 := by
  induction fuel with
  | zero => intro msg st h; exact h
  | succ fuel ih =>
    intro msg st h
    rw [processChunks]
    by_cases he : msg.isEmpty
    · rwa [if_pos he]
    · rw [if_neg he]
      exact ih _ _ (w32_lt _)

lemma sha1h0_lt (msg : List Nat) : sha1h0 msg < 4294967296 :=
  processChunks_fst_lt _ _ _ (by norm_num)

lemma digest16_le (msg : List Nat) : digest16 msg ≤ 65535 := by
  have h : digest16 msg < 65536 :=
    Nat.div_lt_of_lt_mul (by simpa using sha1h0_lt msg)
  omega

lemma scoreOf_nonneg (b : List Nat) : 0 ≤ scoreOf b := by
  unfold scoreOf
  positivity

lemma scoreOf_le_one (b : List Nat) : scoreOf b ≤ 1 := by
  unfold scoreOf
  rw [div_le_one (by norm_num)]
  exact_mod_cast digest16_le b

/-! ## Helper lemmas: aggregation -/

lemma map_normalize_cls (dets : List Detection) :
    (dets.map Detection.cls).map normalizeClass
      = dets.map (fun d => normalizeClass d.cls) := by
  rw [List.map_map]
  rfl

lemma list_sum_le_length {l : List ℚ} (h : ∀ x ∈ l, x ≤ 1) : l.sum ≤ (l.length : ℚ) := by
  induction l with
  | nil => simp
  | cons a t ih =>
    have ha : a ≤ 1 := h a (List.mem_cons_self a t)
    have ht : t.sum ≤ (t.length : ℚ) := ih (fun x hx => h x (List.mem_cons_of_mem a hx))
    simp only [List.sum_cons, List.length_cons]
    push_cast
    linarith

lemma list_sum_nonneg {l : List ℚ} (h : ∀ x ∈ l, 0 ≤ x) : 0 ≤ l.sum := by
  induction l with
  | nil => simp
  | cons a t ih =>
    have ha : 0 ≤ a := h a (List.mem_cons_self a t)
    have ht : 0 ≤ t.sum := ih (fun x hx => h x (List.mem_cons_of_mem a hx))
    simp only [List.sum_cons]
    linarith

lemma mean_mem_unit {l : List ℚ} (hne : ¬l.isEmpty)
    (h : ∀ x ∈ l, 0 ≤ x ∧ x ≤ 1) :
    0 ≤ l.sum / (l.length : ℚ) ∧ l.sum / (l.length : ℚ) ≤ 1 := by
  have hlen : 0 < l.length := by
    cases l with
    | nil => simp at hne
    | cons a t => simp
  have hlenq : (0 : ℚ) < (l.length : ℚ) := by exact_mod_cast hlen
  constructor
  · exact div_nonneg (list_sum_nonneg fun x hx => (h x hx).1) (le_of_lt hlenq)
  · rw [div_le_one hlenq]
    exact list_sum_le_length fun x hx => (h x hx).2

/-- The label field of `aggregateRaw`, by definitional unfolding. -/
lemma aggregateRaw_label_def (classes_raw : List String) (conf_scores : List ℚ) :
    (aggregateRaw classes_raw conf_scores).label =
      (if (classes_raw.map normalizeClass).count "person" > 0 then
        (if (0 : ℤ) < max (((classes_raw.map normalizeClass).count "person" : ℤ)
            - ((classes_raw.map normalizeClass).count "helmet" : ℤ)) 0
         then "no_helmet" else "helmet")
      else "uncertain") := rfl

/-- The confidence field of `aggregateRaw`, by definitional unfolding. -/
lemma aggregateRaw_confidence_def (classes_raw : List String) (conf_scores : List ℚ) :
    (aggregateRaw classes_raw conf_scores).confidence =
      round3 (if conf_scores.isEmpty then 1/2
        else conf_scores.sum / (conf_scores.length : ℚ)) := rfl

lemma aggregateRaw_label_cases (classes_raw : List String) (conf_scores : List ℚ) :
    (aggregateRaw classes_raw conf_scores).label = "helmet"
      ∨ (aggregateRaw classes_raw conf_scores).label = "no_helmet"
      ∨ (aggregateRaw classes_raw conf_scores).label = "uncertain" := by
  rw [aggregateRaw_label_def]
  split_ifs <;> simp

lemma aggregateRaw_wf (classes_raw : List String) (conf_scores : List ℚ)
    (h : ∀ c ∈ conf_scores, 0 ≤ c ∧ c ≤ 1) :
    0 ≤ (aggregateRaw classes_raw conf_scores).confidence
      ∧ (aggregateRaw classes_raw conf_scores).confidence ≤ 1 := by
  rw [aggregateRaw_confidence_def]
  by_cases he : conf_scores.isEmpty
  · rw [if_pos he, round3_half]
    norm_num
  · rw [if_neg he]
    obtain ⟨hl, hr⟩ := mean_mem_unit he h
    exact ⟨round3_nonneg hl, round3_le_one hr⟩

lemma predictStubBytes_wf (b : List Nat) :
    0 ≤ (predictStubBytes b).confidence ∧ (predictStubBytes b).confidence ≤ 1 := by
  have h0 := scoreOf_nonneg b
  have h1 := scoreOf_le_one b
  unfold predictStubBytes
  dsimp only
  split_ifs with ha hb
  · exact ⟨round3_nonneg h0, round3_le_one h1⟩
  · exact ⟨round3_nonneg (by linarith), round3_le_one (by linarith)⟩
  · rw [round3_half]
    norm_num

lemma predictStubBytes_label_cases (b : List Nat) :
    (predictStubBytes b).label = "helmet"
      ∨ (predictStubBytes b).label = "no_helmet"
      ∨ (predictStubBytes b).label = "uncertain" := by
  unfold predictStubBytes
  dsimp only
  split_ifs <;> simp

lemma helmet_in_helmet : containsSub "helmet".data "helmet".data = true := by decide

/-- The label decision of `aggregate`, phrased with the person/helmet counts. -/
lemma aggregate_label_eq (dets : List Detection) :
    (aggregate dets).label =
      if 0 < personCount dets then
        (if helmetCount dets < personCount dets then "no_helmet" else "helmet")
      else "uncertain" := by
  rw [aggregate, aggregateRaw_label_def, map_normalize_cls,
    show (dets.map fun d => normalizeClass d.cls).count "person" = personCount dets from rfl,
    show (dets.map fun d => normalizeClass d.cls).count "helmet" = helmetCount dets from rfl]
  by_cases hp : 0 < personCount dets
  · rw [if_pos hp, if_pos hp]
    by_cases hv : helmetCount dets < personCount dets
    · rw [if_pos (lt_max_iff.mpr (Or.inl (sub_pos.mpr (by exact_mod_cast hv)))), if_pos hv]
    · rw [if_neg (not_lt.mpr (max_le (sub_nonpos.mpr (by exact_mod_cast not_lt.mp hv)) le_rfl)),
        if_neg hv]
  · rw [if_neg hp, if_neg hp]

/-- A well-formed verdict: one of the three enumerated labels, confidence in
[0,1], confidence an integer multiple of 1/1000 (3 decimal places). -/
def WellFormedVerdict (v : Verdict) : Prop :=
  (v.label = "helmet" ∨ v.label = "no_helmet" ∨ v.label = "uncertain")
    ∧ 0 ≤ v.confidence ∧ v.confidence ≤ 1
    ∧ ∃ n : ℤ, v.confidence = (n : ℚ) / 1000

lemma predictStubBytes_wellFormed (b : List Nat) : WellFormedVerdict (predictStubBytes b) := by
  refine ⟨predictStubBytes_label_cases b, (predictStubBytes_wf b).1,
    (predictStubBytes_wf b).2, ?_⟩
  unfold predictStubBytes
  dsimp only
  split_ifs <;> exact round3_thousandth _

lemma aggregateRaw_wellFormed (classes_raw : List String) (conf_scores : List ℚ)
    (h : ∀ c ∈ conf_scores, 0 ≤ c ∧ c ≤ 1) :
    WellFormedVerdict (aggregateRaw classes_raw conf_scores) := by
  refine ⟨aggregateRaw_label_cases classes_raw conf_scores,
    (aggregateRaw_wf classes_raw conf_scores h).1,
    (aggregateRaw_wf classes_raw conf_scores h).2, ?_⟩
  rw [aggregateRaw_confidence_def]
  exact round3_thousandth _

/-! ## Claims -/

/-- C1: for every list of detections, the aggregated verdict label is decided
by the normalized category counts: `person_count = 0` gives `"uncertain"`,
`person_count > helmet_count` (positive violation count) gives `"no_helmet"`,
and `0 < person_count ≤ helmet_count` gives `"helmet"`. -/
theorem C1_aggregate_label (dets : List Detection) :
    (personCount dets = 0 → (aggregate dets).label = "uncertain") ∧
    (helmetCount dets < personCount dets → (aggregate dets).label = "no_helmet") ∧
    (0 < personCount dets → personCount dets ≤ helmetCount dets →
      (aggregate dets).label = "helmet") := by
  refine ⟨?_, ?_, ?_⟩
  · intro h
    rw [aggregate_label_eq, if_neg (by omega)]
  · intro h
    rw [aggregate_label_eq, if_pos (by omega), if_pos h]
  · intro h1 h2
    rw [aggregate_label_eq, if_pos h1, if_neg (not_lt.mpr h2)]

/-- Witness for C1: a single bare person gives `"no_helmet"`; its person
count is 1 and its helmet count is 0. -/
theorem C1_aggregate_label_witness :
    (aggregate [⟨"person", 9/10⟩]).label = "no_helmet" :=
  (C1_aggregate_label [⟨"person", 9/10⟩]).2.1 (by decide)

/-- C2: the stub computes `score` as the first 2 bytes of the SHA-1 digest
of the bytes, big-endian, divided by 65535, and branches on it: above 0.7 →
`"helmet"` with confidence `score`; below 0.3 → `"no_helmet"` with confidence
`1 - score`; otherwise `"uncertain"` with confidence 0.5 — confidence rounded
to 3 decimal places. -/
theorem C2_stub_score (b : List Nat) :
    scoreOf b = (digest16 b : ℚ) / 65535 ∧
    (7/10 < scoreOf b → predictStubBytes b = ⟨"helmet", round3 (scoreOf b)⟩) ∧
    (scoreOf b < 3/10 → predictStubBytes b = ⟨"no_helmet", round3 (1 - scoreOf b)⟩) ∧
    (3/10 ≤ scoreOf b → scoreOf b ≤ 7/10 → predictStubBytes b = ⟨"uncertain", 1/2⟩) := by
  refine ⟨rfl, ?_, ?_, ?_⟩
  · intro h
    unfold predictStubBytes
    dsimp only
    rw [if_pos h]
  · intro h
    unfold predictStubBytes
    dsimp only
    rw [if_neg (by rw [not_lt]; linarith), if_pos h]
  · intro h1 h2
    unfold predictStubBytes
    dsimp only
    rw [if_neg (not_lt.mpr h2), if_neg (not_lt.mpr h1), round3_half]

/-- Witness for C2: on the empty byte string the score is 0xda39/65535 > 0.7,
so the stub answers `"helmet"` with the rounded score. -/
theorem C2_stub_score_witness :
    7/10 < scoreOf [] ∧ predictStubBytes [] = ⟨"helmet", round3 (scoreOf [])⟩ := by
  have hd : digest16 [] = 55865 := by decide
  have hs : scoreOf [] = (55865 : ℚ) / 65535 := by
    unfold scoreOf
    rw [hd]
    norm_num
  have hgt : 7/10 < scoreOf [] := by
    rw [hs]
    norm_num
  exact ⟨hgt, (C2_stub_score []).2.1 hgt⟩

/-- C3: `predict` is a total function into verdicts whose label is always one
of the three enumerated values, and every failure of the model path — a model
handle that is absent, a decode/inference error, or a failing class-label
lookup — makes `predict` fall back to the deterministic stub on the same
original bytes. -/
theorem C3_predict_fallback (svc : ModelService) (b : List Nat) :
    ((svc.predict b).label = "helmet" ∨ (svc.predict b).label = "no_helmet"
      ∨ (svc.predict b).label = "uncertain") ∧
    (svc.model = none → svc.predict b = predictStubBytes b) ∧
    (∀ m e, svc.model = some m → m.run b = Except.error e →
      svc.predict b = predictStubBytes b) ∧
    (∀ m results, svc.model = some m → m.run b = Except.ok results →
      results.cls.mapM (classLabel (effNames svc results)) = none →
      svc.predict b = predictStubBytes b) := by
  refine ⟨?_, ?_, ?_, ?_⟩
  · rcases hm : svc.model with _ | m
    · simp only [ModelService.predict, hm, ModelService.predictStub]
      exact predictStubBytes_label_cases b
    · simp only [ModelService.predict, hm]
      cases hr : m.run b with
      | error e =>
        simp only [ModelService.predictWithYolo, hr]
        exact predictStubBytes_label_cases b
      | ok results =>
        simp only [ModelService.predictWithYolo, hr]
        cases hc : results.cls.mapM (classLabel (effNames svc results)) with
        | none =>
          simp only [hc]
          exact predictStubBytes_label_cases b
        | some classes_raw =>
          simp only [hc]
          exact aggregateRaw_label_cases classes_raw results.conf
  · intro hm
    simp only [ModelService.predict, hm, ModelService.predictStub]
  · intro m e hm hr
    simp only [ModelService.predict, hm, ModelService.predictWithYolo, hr]
  · intro m results hm hr hc
    simp only [ModelService.predict, hm, ModelService.predictWithYolo, hr, hc]

/-- Witness for C3: a service whose model load failed predicts via the stub. -/
theorem C3_predict_fallback_witness :
    (ModelService.init none 42 "cpu" (Except.error LoadError.importError)).predict []
      = predictStubBytes [] :=
  (C3_predict_fallback (ModelService.init none 42 "cpu"
    (Except.error LoadError.importError)) []).2.1 rfl

/-- C4: a raw class label is normalized case-insensitively with this
precedence: lowercased `"head"`/`"person"` → `"person"`; else a lowercased
label containing `"helmet"` → `"helmet"`; else the lowercased label itself,
which contributes to neither `person_count` nor `helmet_count`. -/
theorem C4_normalize (c : String) :
    ((strLower c = "head" ∨ strLower c = "person") → normalizeClass c = "person") ∧
    (¬(strLower c = "head" ∨ strLower c = "person") →
      containsSub "helmet".data (strLower c).data = true → normalizeClass c = "helmet") ∧
    (¬(strLower c = "head" ∨ strLower c = "person") →
      containsSub "helmet".data (strLower c).data = false →
      normalizeClass c = strLower c ∧
      ∀ (q : ℚ) (dets : List Detection),
        personCount (⟨c, q⟩ :: dets) = personCount dets ∧
        helmetCount (⟨c, q⟩ :: dets) = helmetCount dets) := by
  refine ⟨?_, ?_, ?_⟩
  · intro h
    unfold normalizeClass
    dsimp only
    rw [if_pos h]
  · intro h1 h2
    unfold normalizeClass
    dsimp only
    rw [if_neg h1, if_pos h2]
  · intro h1 h2
    have hnorm : normalizeClass c = strLower c := by
      unfold normalizeClass
      dsimp only
      rw [if_neg h1, if_neg (by simp [h2])]
    refine ⟨hnorm, ?_⟩
    intro q dets
    have hp : normalizeClass c ≠ "person" := by
      rw [hnorm]
      intro hcon
      exact h1 (Or.inr hcon)
    have hh : normalizeClass c ≠ "helmet" := by
      rw [hnorm]
      intro hcon
      have hin : containsSub "helmet".data (strLower c).data = true := by
        rw [hcon]
        exact helmet_in_helmet
      rw [h2] at hin
      exact Bool.noConfusion hin
    constructor
    · unfold personCount
      rw [List.map_cons, List.count_cons]
      simp [hp]
    · unfold helmetCount
      rw [List.map_cons, List.count_cons]
      simp [hh]

/-- Witness for C4: `"Car"` lowercases to `"car"`, matches neither rule, and
a `"Car"` detection leaves both counts unchanged. -/
theorem C4_normalize_witness :
    normalizeClass "Car" = "car" ∧ personCount [⟨"Car", 1/2⟩] = 0 := by
  have h := (C4_normalize "Car").2.2 (by decide) (by decide)
  refine ⟨by rw [h.1]; decide, ?_⟩
  rw [(h.2 (1/2) []).1]
  rfl

/-- C5: the aggregated confidence is the arithmetic mean of all detection
confidences (regardless of category) rounded to 3 decimal places, and the
empty detection list yields the verdict `uncertain`/0.5. -/
theorem C5_aggregate_confidence (dets : List Detection) :
    (dets ≠ [] →
      (aggregate dets).confidence
        = round3 ((dets.map Detection.conf).sum / (dets.length : ℚ))) ∧
    aggregate [] = ⟨"uncertain", 1/2⟩ := by
  constructor
  · intro h
    obtain ⟨d, ds, rfl⟩ := List.exists_cons_of_ne_nil h
    rw [aggregate, aggregateRaw_confidence_def, if_neg (by simp), List.length_map]
  · have h1 : (aggregate []).label = "uncertain" := rfl
    have h2 : (aggregate []).confidence = 1/2 := by
      rw [aggregate, aggregateRaw_confidence_def,
        if_pos (show (List.map Detection.conf []).isEmpty = true from rfl)]
      exact round3_half
    exact Verdict.ext h1 h2

/-- Witness for C5: the spec scenario `[person 0.9, helmet 0.8]` has mean
confidence 0.85. -/
theorem C5_aggregate_confidence_witness :
    (aggregate [⟨"person", 9/10⟩, ⟨"helmet", 8/10⟩]).confidence
      = round3 (([⟨"person", 9/10⟩, ⟨"helmet", 8/10⟩].map Detection.conf).sum / 2) :=
  (C5_aggregate_confidence [⟨"person", 9/10⟩, ⟨"helmet", 8/10⟩]).1 (by decide)

/-- C6: the stub prediction is a pure function of the bytes alone: two
services built with arbitrary (possibly different) seeds, weight paths,
devices and load outcomes return identical stub verdicts on identical
bytes. -/
theorem C6_stub_seed_independent (wp1 wp2 : Option String) (s1 s2 : ℤ)
    (d1 d2 : String) (l1 l2 : Except LoadError (YoloModel × List String))
    (b : List Nat) :
    (ModelService.init wp1 s1 d1 l1).predictStub b
      = (ModelService.init wp2 s2 d2 l2).predictStub b := rfl

/-- C7: under the precondition that every detector confidence is in [0,1],
every verdict from `predict` — through the model path or the stub — has one
of the three enumerated labels and a confidence in [0,1] that is an integer
multiple of 1/1000. -/
theorem C7_verdict_wellFormed (svc : ModelService) (b : List Nat)
    (h : ∀ m results, svc.model = some m → m.run b = Except.ok results →
      ∀ c ∈ results.conf, 0 ≤ c ∧ c ≤ 1) :
    WellFormedVerdict (svc.predict b) := by
  rcases hm : svc.model with _ | m
  · simp only [ModelService.predict, hm, ModelService.predictStub]
    exact predictStubBytes_wellFormed b
  · simp only [ModelService.predict, hm]
    cases hr : m.run b with
    | error e =>
      simp only [ModelService.predictWithYolo, hr]
      exact predictStubBytes_wellFormed b
    | ok results =>
      simp only [ModelService.predictWithYolo, hr]
      cases hc : results.cls.mapM (classLabel (effNames svc results)) with
      | none =>
        simp only [hc]
        exact predictStubBytes_wellFormed b
      | some classes_raw =>
        simp only [hc]
        exact aggregateRaw_wellFormed classes_raw results.conf (h m results hm hr)

/-- Witness for C7: a stub-only service on empty bytes (the precondition on
detector confidences is vacuous — there is no model handle). -/
theorem C7_verdict_wellFormed_witness :
    WellFormedVerdict ((ModelService.init none 0 "cpu"
      (Except.error LoadError.importError)).predict []) :=
  C7_verdict_wellFormed _ [] (by intro m results hm; simp [ModelService.init] at hm)

/-- C8 counterexample: with name table `["person"]` and detected class index
-2, the source expression `names[int(c)] if int(c) < len(names) else
str(int(c))` takes the first branch (-2 < 1) and `names[-2]` raises
`IndexError` (modelled as `none`) instead of producing a label — the lookup
does index out of bounds for a sufficiently negative index. -/
theorem C8_counterexample : classLabel ["person"] (-2) = none := by decide

/-- C8 (amended): for every *non-negative* detected class index `i` the raw
label is the table entry at `i` when `i` is in range and `str(i)` otherwise,
and the lookup never errors. -/
theorem C8_class_lookup (names : List String) (i : ℤ) (h : 0 ≤ i) :
    (i < (names.length : ℤ) →
      classLabel names i = names.get? i.toNat ∧ i.toNat < names.length) ∧
    ((names.length : ℤ) ≤ i → classLabel names i = some (toString i)) ∧
    classLabel names i ≠ none := by
  refine ⟨?_, ?_, ?_⟩
  · intro hlt
    refine ⟨?_, by omega⟩
    unfold classLabel pyIndex
    rw [if_pos hlt, if_pos h]
  · intro hge
    unfold classLabel
    rw [if_neg (not_lt.mpr hge)]
  · by_cases hlt : i < (names.length : ℤ)
    · unfold classLabel pyIndex
      rw [if_pos hlt, if_pos h]
      intro hnone
      rw [List.get?_eq_none] at hnone
      omega
    · unfold classLabel
      rw [if_neg hlt]
      simp

/-- Witness for C8: index 5 against the one-entry table `["person"]` is out
of range, so the label is the stringified index `"5"`. -/
theorem C8_class_lookup_witness :
    classLabel ["person"] 5 = some (toString (5 : ℤ)) :=
  (C8_class_lookup ["person"] 5 (by decide)).2.1 (by decide)

/-- C9: a failed load attempt leaves the model handle absent, and every
subsequent `predict` call on that service takes the stub path. -/
theorem C9_load_failure_stub (wp : Option String) (seed : ℤ) (dev : String)
    (e : LoadError) (b : List Nat) :
    (ModelService.init wp seed dev (Except.error e)).model = none ∧
    (ModelService.init wp seed dev (Except.error e)).predict b = predictStubBytes b :=
  ⟨rfl, rfl⟩

/-- C10: the stub's confidence is either exactly 0.5 or at least 0.7 (and at
most 1): no stub verdict has a confidence strictly between 0.5 and 0.7. -/
theorem C10_stub_confidence_gap (b : List Nat) :
    (predictStubBytes b).confidence = 1/2 ∨
      (7/10 ≤ (predictStubBytes b).confidence ∧ (predictStubBytes b).confidence ≤ 1) := by
  have h0 := scoreOf_nonneg b
  have h1 := scoreOf_le_one b
  unfold predictStubBytes
  dsimp only
  split_ifs with ha hb
  · exact Or.inr ⟨round3_ge_of_gt ha, round3_le_one h1⟩
  · exact Or.inr ⟨round3_ge_of_gt (by linarith), round3_le_one (by linarith)⟩
  · exact Or.inl round3_half
